import Mathlib

/-!
Formal model of the roomba reactive controllers: the behavior tree engine
(`behavior_tree.py`) and the finite state machine (`state_machine.py`).

Machine reals (Python floats used for times and speeds) are modelled as
rationals.  Composite-node execution, whose Python `while` loop may not
terminate, is modelled with explicit fuel: a result of `none` means the
loop ran out of fuel (the Python loop would still be going).  The
`running_child` object reference of a composite is modelled by the index of
that child in the
`children` list (the children of one composite are distinct objects in this
repository, so `children.index(running_child)` is exactly that index).
Python exceptions that escape (the `IndexError` from `self.children[0]` on
an empty child list) are modelled by an explicit error result.
-/

/-- Execution status of a behavior tree node (`ExecutionStatus` in
`behavior_tree.py`).  A Python method that falls off the end returns
`None`; that is modelled as `Option ExecutionStatus` at call sites. -/
inductive ExecutionStatus where
  | SUCCESS
  | FAILURE
  | RUNNING
deriving DecidableEq

/-- Modelled from the spec: `constants.py` is not part of the sources
under review; section 6 of the spec lists the recognized configuration
constants by name without fixing their values, so they are carried as an
abstract record of rationals. -/
structure Constants where
  SAMPLE_TIME : ℚ
  FORWARD_SPEED : ℚ
  BACKWARD_SPEED : ℚ
  ANGULAR_SPEED : ℚ
  MOVE_FORWARD_TIME : ℚ
  MOVE_IN_SPIRAL_TIME : ℚ
  GO_BACK_TIME : ℚ
  INITIAL_RADIUS_SPIRAL : ℚ
  SPIRAL_FACTOR : ℚ
deriving DecidableEq

/-- Model of Python `random.uniform(a, b)`: the generator draws `u` from
`[0, 1)` and the sample is `a + (b - a) * u`.  The draw `u` is passed in
explicitly so that the pseudo-random stream is an explicit input. -/
def random.uniform (a b u : ℚ) : ℚ := a + (b - a) * u

/-- Observable events of one composite-node tick: a child (identified by
its index) had `enter` called on it, or had `execute` called on it with
the given returned status (`none` = the Python method returned `None`). -/
inductive Event where
  | enterEv (i : Nat)
  | execEv (i : Nat) (st : Option ExecutionStatus)
deriving DecidableEq

/-- A child of a composite node, abstracted over a world type `ω` (the
agent plus the mutable state of the child): its `enter` method and its
`execute` method, the latter returning the status (possibly `None`). -/
structure Child (ω : Type) where
  enter : ω → ω
  exec : ω → Option ExecutionStatus × ω

/-- Result of one composite `execute` call: a returned status together
with the final `running_child` (as an index), the final world and the
trace of child events; or an escaped Python exception (`IndexError`). -/
inductive CompResult (ω : Type) where
  | ok (st : ExecutionStatus) (rc : Option Nat) (w : ω) (tr : List Event)
  | err (tr : List Event)
deriving DecidableEq

/-- The `while` loop of `SequenceNode.execute`, with explicit fuel
(`none` = fuel exhausted, the Python loop is still running).  `i` is the
index of `running_child`, `tr` the event trace accumulated so far. -/
def seqLoop {ω : Type} (cs : List (Child ω)) : Nat → Nat → ω → List Event →
    Option (CompResult ω)
  | 0, _, _, _ => none
  | fuel + 1, i, w, tr =>
    match cs[i]? with
    | none => some (.err tr)
    | some c =>
      match c.exec w with
      | (some .FAILURE, w2) =>
        some (.ok .FAILURE none w2 (tr ++ [.execEv i (some .FAILURE)]))
      | (some .RUNNING, w2) =>
        some (.ok .RUNNING (some i) w2 (tr ++ [.execEv i (some .RUNNING)]))
      | (some .SUCCESS, w2) =>
        if h : i + 1 < cs.length then
          seqLoop cs fuel (i + 1) ((cs[i + 1]).enter w2)
            (tr ++ [.execEv i (some .SUCCESS), .enterEv (i + 1)])
        else
          some (.ok .SUCCESS none w2 (tr ++ [.execEv i (some .SUCCESS)]))
      | (none, w2) => seqLoop cs fuel i w2 (tr ++ [.execEv i none])

/-- `SequenceNode.enter`: sets `running_child` to `None`. -/
def SequenceNode.enter (_rc : Option Nat) : Option Nat := none

/-- `SequenceNode.execute`: if `running_child` is `None`, put the first
child to run (`self.children[0]` raises `IndexError` on an empty list),
then run the loop. -/
def SequenceNode.execute {ω : Type} (cs : List (Child ω)) (fuel : Nat)
    (rc : Option Nat) (w : ω) : Option (CompResult ω) :=
  match rc with
  | none =>
    match cs[0]? with
    | none => some (.err [])
    | some c0 => seqLoop cs fuel 0 (c0.enter w) [.enterEv 0]
  | some i => seqLoop cs fuel i w []

/-- The `while` loop of `SelectorNode.execute`, mirroring `seqLoop` with
the roles of Success and Failure swapped. -/
def selLoop {ω : Type} (cs : List (Child ω)) : Nat → Nat → ω → List Event →
    Option (CompResult ω)
  | 0, _, _, _ => none
  | fuel + 1, i, w, tr =>
    match cs[i]? with
    | none => some (.err tr)
    | some c =>
      match c.exec w with
      | (some .FAILURE, w2) =>
        if h : i + 1 < cs.length then
          selLoop cs fuel (i + 1) ((cs[i + 1]).enter w2)
            (tr ++ [.execEv i (some .FAILURE), .enterEv (i + 1)])
        else
          some (.ok .FAILURE none w2 (tr ++ [.execEv i (some .FAILURE)]))
      | (some .RUNNING, w2) =>
        some (.ok .RUNNING (some i) w2 (tr ++ [.execEv i (some .RUNNING)]))
      | (some .SUCCESS, w2) =>
        some (.ok .SUCCESS none w2 (tr ++ [.execEv i (some .SUCCESS)]))
      | (none, w2) => selLoop cs fuel i w2 (tr ++ [.execEv i none])

/-- `SelectorNode.enter`: sets `running_child` to `None`. -/
def SelectorNode.enter (_rc : Option Nat) : Option Nat := none

/-- `SelectorNode.execute`: same entry protocol as the sequence node. -/
def SelectorNode.execute {ω : Type} (cs : List (Child ω)) (fuel : Nat)
    (rc : Option Nat) (w : ω) : Option (CompResult ω) :=
  match rc with
  | none =>
    match cs[0]? with
    | none => some (.err [])
    | some c0 => selLoop cs fuel 0 (c0.enter w) [.enterEv 0]
  | some i => selLoop cs fuel i w []

/-- A behavior tree: a nullable root, modelled as an optional function
from the world to the execute result of the root. -/
structure BehaviorTree (ω : Type) where
  root : Option (ω → Option (CompResult ω))

/-- Result of `BehaviorTree.update`: returned normally with the final
world, a Python exception escaped, or the loop of the root ran out of fuel. -/
inductive UpdateResult (ω : Type) where
  | ok (w : ω)
  | raised
  | fuelOut
deriving DecidableEq

/-- `BehaviorTree.update`: `if self.root is not None: self.root.execute(agent)`
— with a `None` root nothing at all happens and the call returns normally. -/
def BehaviorTree.update {ω : Type} (t : BehaviorTree ω) (w : ω) :
    UpdateResult ω :=
  match t.root with
  | none => .ok w
  | some rootExec =>
    match rootExec w with
    | none => .fuelOut
    | some (.err _) => .raised
    | some (.ok _ _ w2 _) => .ok w2

/-- The property claimed of composite results: a terminal (non-Running)
status comes with `running_child = None`, and a Running status comes with
a non-null `running_child`. -/
def CompResult.terminalClearsRC {ω : Type} : CompResult ω → Prop
  | .ok st rc _ _ =>
    (st ≠ .RUNNING → rc = none) ∧ (st = .RUNNING → rc.isSome = true)
  | .err _ => True

/-- Mutable state of `MoveForwardNode`: its per-activation call counter
(`self.time` and `self.linear_speed` are recomputed or constant). -/
structure MoveForwardNode where
  call_count : Nat
deriving DecidableEq

/-- `MoveForwardNode.enter`: `self.call_count = 0`. -/
def MoveForwardNode.enter (_s : MoveForwardNode) : MoveForwardNode := ⟨0⟩

/-- `MoveForwardNode.execute`: increments the counter, computes
`time = call_count * SAMPLE_TIME` and branches on the literal threshold
`3` and the bumper.  Returns (status, new node state, velocity command
issued if any). -/
def MoveForwardNode.execute (C : Constants) (bumper : Bool)
    (s : MoveForwardNode) :
    Option ExecutionStatus × MoveForwardNode × Option (ℚ × ℚ) :=
  let cc := s.call_count + 1
  let time : ℚ := (cc : ℚ) * C.SAMPLE_TIME
  if time < 3 then
    if bumper = false then
      (some .RUNNING, ⟨cc⟩, some (C.FORWARD_SPEED, 0))
    else
      (some .FAILURE, ⟨cc⟩, none)
  else
    (some .SUCCESS, ⟨cc⟩, none)

/-- Mutable state of `MoveInSpiralNode`: its per-activation call counter. -/
structure MoveInSpiralNode where
  call_count : Nat
deriving DecidableEq

/-- `MoveInSpiralNode.enter`: `self.call_count = 0`. -/
def MoveInSpiralNode.enter (_s : MoveInSpiralNode) : MoveInSpiralNode := ⟨0⟩

/-- `MoveInSpiralNode.execute`: spiral radius grows linearly with elapsed
time; branches on the literal threshold `20` and the bumper. -/
def MoveInSpiralNode.execute (C : Constants) (bumper : Bool)
    (s : MoveInSpiralNode) :
    Option ExecutionStatus × MoveInSpiralNode × Option (ℚ × ℚ) :=
  let cc := s.call_count + 1
  let time : ℚ := (cc : ℚ) * C.SAMPLE_TIME
  let radio := C.INITIAL_RADIUS_SPIRAL + C.SPIRAL_FACTOR * time
  let angular_speed := C.ANGULAR_SPEED / radio
  if time < 20 then
    if bumper = false then
      (some .RUNNING, ⟨cc⟩, some (C.FORWARD_SPEED, angular_speed))
    else
      (some .FAILURE, ⟨cc⟩, none)
  else
    (some .SUCCESS, ⟨cc⟩, none)

/-- Mutable state of `GoBackNode`: its call counter, which is set to `0`
in `__init__` only. -/
structure GoBackNode where
  call_count : Nat
deriving DecidableEq

/-- `GoBackNode.enter`: the body is `pass` — it does NOT reset
`call_count` (unlike the other three leaves). -/
def GoBackNode.enter (s : GoBackNode) : GoBackNode := s

/-- `GoBackNode.execute`: Success once `time > GO_BACK_TIME` with the
bumper clear; otherwise commands backward velocity and returns Running. -/
def GoBackNode.execute (C : Constants) (bumper : Bool) (s : GoBackNode) :
    Option ExecutionStatus × GoBackNode × Option (ℚ × ℚ) :=
  let cc := s.call_count + 1
  let time : ℚ := (cc : ℚ) * C.SAMPLE_TIME
  if C.GO_BACK_TIME < time ∧ bumper = false then
    (some .SUCCESS, ⟨cc⟩, none)
  else
    (some .RUNNING, ⟨cc⟩, some (C.BACKWARD_SPEED, 0))

/-- Mutable state of `RotateNode`: call counter plus the two values
sampled in `enter`. -/
structure RotateNode where
  call_count : Nat
  random_angular_direction : ℚ
  roomba_turning_time : ℚ
deriving DecidableEq

/-- `RotateNode.enter`: resets the counter and samples
`random.uniform(-1, 1)` and `random.uniform(1, MOVE_FORWARD_TIME)` once;
`u1` and `u2` are the two generator draws (each in `[0, 1)`). -/
def RotateNode.enter (C : Constants) (u1 u2 : ℚ) (_s : RotateNode) :
    RotateNode :=
  ⟨0, random.uniform (-1) 1 u1, random.uniform 1 C.MOVE_FORWARD_TIME u2⟩

/-- `RotateNode.execute`: spins (sign given by the sampled direction)
while `time < roomba_turning_time`; past it, returns Failure if the
bumper is clear, and otherwise falls off the end (`None` status). -/
def RotateNode.execute (C : Constants) (bumper : Bool) (s : RotateNode) :
    Option ExecutionStatus × RotateNode × Option (ℚ × ℚ) :=
  let cc := s.call_count + 1
  let time : ℚ := (cc : ℚ) * C.SAMPLE_TIME
  let s2 : RotateNode := ⟨cc, s.random_angular_direction, s.roomba_turning_time⟩
  if time < s.roomba_turning_time then
    if s.random_angular_direction > 0 then
      (some .RUNNING, s2, some (0, C.ANGULAR_SPEED))
    else
      (some .RUNNING, s2, some (0, -C.ANGULAR_SPEED))
  else if bumper = false then
    (some .FAILURE, s2, none)
  else
    (none, s2, none)

/-- The states of the roomba finite state machine (`state_machine.py`),
with the mutable fields of each concrete `State` subclass.  The field
`roomba_turning_time` of `RotateState` is first assigned inside
`check_transition`, so it
is `none` right after construction. -/
inductive FSMState where
  | moveForward (call_count : Nat) (time : ℚ)
  | moveInSpiral (call_count : Nat) (time : ℚ) (radio : ℚ)
  | goBack (call_count : Nat) (time : ℚ)
  | rotate (call_count : Nat) (time : ℚ) (random_angular_direction : ℚ)
      (roomba_turning_time : Option ℚ)
deriving DecidableEq

/-- `check_transition` of the current state.  `rng` is the pseudo-random
stream of generator draws (each in `[0, 1)`) and `rix` the index of the
next draw; `RotateState()` construction draws the direction, and
`RotateState.check_transition` draws a fresh turning time on every call. -/
def FSMState.check_transition (C : Constants) (bumper : Bool)
    (rng : Nat → ℚ) : FSMState → Nat → FSMState × Nat
  | .moveForward cc _t, rix =>
    let cc2 := cc + 1
    let t2 : ℚ := (cc2 : ℚ) * C.SAMPLE_TIME
    let s1 := if bumper = true then FSMState.goBack 0 0
      else FSMState.moveForward cc2 t2
    let s2 := if C.MOVE_FORWARD_TIME < t2 ∧ bumper = false then
      FSMState.moveInSpiral 0 0 0 else s1
    (s2, rix)
  | .moveInSpiral cc _t r, rix =>
    let cc2 := cc + 1
    let t2 : ℚ := (cc2 : ℚ) * C.SAMPLE_TIME
    let s1 := if bumper = true then FSMState.goBack 0 0
      else FSMState.moveInSpiral cc2 t2 r
    let s2 := if C.MOVE_IN_SPIRAL_TIME < t2 ∧ bumper = false then
      FSMState.moveForward 0 0 else s1
    (s2, rix)
  | .goBack cc _t, rix =>
    let cc2 := cc + 1
    let t2 : ℚ := (cc2 : ℚ) * C.SAMPLE_TIME
    if C.GO_BACK_TIME < t2 then
      (FSMState.rotate 0 0 (random.uniform (-1) 1 (rng rix)) none, rix + 1)
    else
      (FSMState.goBack cc2 t2, rix)
  | .rotate cc _t dir _tt, rix =>
    let cc2 := cc + 1
    let t2 : ℚ := (cc2 : ℚ) * C.SAMPLE_TIME
    let tt2 := random.uniform 1 C.MOVE_FORWARD_TIME (rng rix)
    if bumper = false ∧ tt2 < t2 then
      (FSMState.moveForward 0 0, rix + 1)
    else
      (FSMState.rotate cc2 t2 dir (some tt2), rix + 1)

/-- `execute` of the current state: every concrete state issues exactly
one `set_velocity` command; `MoveInSpiralState.execute` also updates its
`radio` field. -/
def FSMState.execute (C : Constants) : FSMState → FSMState × (ℚ × ℚ)
  | .moveForward cc t => (.moveForward cc t, (C.FORWARD_SPEED, 0))
  | .moveInSpiral cc t _r =>
    let r2 := C.INITIAL_RADIUS_SPIRAL + C.SPIRAL_FACTOR * t
    (.moveInSpiral cc t r2, (C.FORWARD_SPEED, C.ANGULAR_SPEED / r2))
  | .goBack cc t => (.goBack cc t, (C.BACKWARD_SPEED, 0))
  | .rotate cc t dir tt =>
    (.rotate cc t dir tt,
      if dir > 0 then ((0 : ℚ), C.ANGULAR_SPEED) else ((0 : ℚ), -C.ANGULAR_SPEED))

/-- `FiniteStateMachine.update`: `check_transition` on the current state,
then `execute` on the (possibly replaced) current state, in that order in
the same tick.  Returns the final state, the next random-stream index and
the velocity command issued by the execute phase. -/
def FiniteStateMachine.update (C : Constants) (bumper : Bool)
    (rng : Nat → ℚ) (s : FSMState) (rix : Nat) :
    FSMState × Nat × (ℚ × ℚ) :=
  let p1 := FSMState.check_transition C bumper rng s rix
  let p2 := FSMState.execute C p1.1
  (p2.1, p1.2, p2.2)

/-- Concrete constants used for witnesses: a sample period of 1 and the
thresholds of the originating lab configuration. -/
def CdemoT1 : Constants := ⟨1, 1, -1, 1, 3, 20, 5, 1, 1⟩

/-- Demo child over world `Nat` whose execute always fails. -/
def alwaysFailChild : Child Nat := ⟨fun w => w, fun w => (some .FAILURE, w)⟩

/-- Demo child over world `Nat` whose enter adds 1 and whose execute
always succeeds, adding 10 to the world. -/
def alwaysSucceedChild : Child Nat :=
  ⟨fun w => w + 1, fun w => (some .SUCCESS, w + 10)⟩

/-- Demo child over world `Nat` whose execute always reports Running. -/
def alwaysRunChild : Child Nat := ⟨fun w => w, fun w => (some .RUNNING, w)⟩

/-- Demo child over world `Nat` whose execute always returns no status at
all (a Python method falling off the end). -/
def alwaysNoneChild : Child Nat := ⟨fun w => w, fun w => (none, w)⟩

/-- Demo children list: failing child, then succeeding child. -/
def csFailFirst : List (Child Nat) := [alwaysFailChild, alwaysSucceedChild]

/-- Demo children list: succeeding child, then running child. -/
def csSucceedThenRun : List (Child Nat) := [alwaysSucceedChild, alwaysRunChild]

/-- Demo children list holding only the status-less child. -/
def csNoneOnly : List (Child Nat) := [alwaysNoneChild]

/-- Demo children list with two failing children. -/
def csTwoFail : List (Child Nat) := [alwaysFailChild, alwaysFailChild]

theorem seqLoop_rcInv {ω : Type} (cs : List (Child ω)) (fuel : Nat) :
    ∀ (i : Nat) (w : ω) (tr : List Event) (r : CompResult ω),
      seqLoop cs fuel i w tr = some r → r.terminalClearsRC := by
  induction fuel with
  | zero =>
    intro i w tr r h
    simp [seqLoop] at h
  | succ n ih =>
    intro i w tr r h
    rw [seqLoop] at h
    split at h
    · cases h; trivial
    · split at h
      · cases h; simp [CompResult.terminalClearsRC]
      · cases h; simp [CompResult.terminalClearsRC]
      · split at h
        · exact ih _ _ _ _ h
        · cases h; simp [CompResult.terminalClearsRC]
      · exact ih _ _ _ _ h

theorem selLoop_rcInv {ω : Type} (cs : List (Child ω)) (fuel : Nat) :
    ∀ (i : Nat) (w : ω) (tr : List Event) (r : CompResult ω),
      selLoop cs fuel i w tr = some r → r.terminalClearsRC := by
  induction fuel with
  | zero =>
    intro i w tr r h
    simp [selLoop] at h
  | succ n ih =>
    intro i w tr r h
    rw [selLoop] at h
    split at h
    · cases h; trivial
    · split at h
      · split at h
        · exact ih _ _ _ _ h
        · cases h; simp [CompResult.terminalClearsRC]
      · cases h; simp [CompResult.terminalClearsRC]
      · cases h; simp [CompResult.terminalClearsRC]
      · exact ih _ _ _ _ h

theorem selLoop_failureLast {ω : Type} (cs : List (Child ω)) (fuel : Nat) :
    ∀ (i : Nat) (w : ω) (tr : List Event) (rc2 : Option Nat) (w2 : ω)
      (tr2 : List Event),
      selLoop cs fuel i w tr = some (.ok .FAILURE rc2 w2 tr2) →
      tr2.getLast? = some (.execEv (cs.length - 1) (some .FAILURE)) := by
  induction fuel with
  | zero =>
    intro i w tr rc2 w2 tr2 h
    simp [selLoop] at h
  | succ n ih =>
    intro i w tr rc2 w2 tr2 h
    rw [selLoop] at h
    split at h
    · simp at h
    · rename_i c hc
      split at h
      · split at h
        · exact ih _ _ _ _ _ _ h
        · rename_i hnotlt
          have hilen : i < cs.length := by
            by_contra hge
            rw [List.getElem?_eq_none (by omega)] at hc
            exact Option.noConfusion hc
          have hieq : i = cs.length - 1 := by omega
          cases h
          rw [← hieq, List.getLast?_concat]
      · simp at h
      · simp at h
      · exact ih _ _ _ _ _ _ h


/-- Claim C1: for a sequence node with at least one child, when the
running child fails the sequence clears `running_child` and returns
Failure that tick without entering any sibling (the trace holds no enter
event); when a non-last child succeeds the sequence advances to the next
sibling, enters it, and keeps executing within the same tick (the call
reduces to the loop continuing at the next sibling after its enter);
when the last child succeeds the sequence clears `running_child` and
returns Success; when a child reports Running the sequence returns
Running immediately. -/
theorem seq_C1 {ω : Type} (cs : List (Child ω)) (fuel i : Nat)
    (hi : i < cs.length) (w w2 : ω) :
    (cs[i].exec w = (some .FAILURE, w2) →
        SequenceNode.execute cs (fuel + 1) (some i) w
          = some (.ok .FAILURE none w2 [.execEv i (some .FAILURE)]))
  ∧ (cs[i].exec w = (some .RUNNING, w2) →
        SequenceNode.execute cs (fuel + 1) (some i) w
          = some (.ok .RUNNING (some i) w2 [.execEv i (some .RUNNING)]))
  ∧ (∀ _h2 : i + 1 < cs.length, cs[i].exec w = (some .SUCCESS, w2) →
        SequenceNode.execute cs (fuel + 1) (some i) w
          = seqLoop cs fuel (i + 1) (cs[i + 1].enter w2)
              [.execEv i (some .SUCCESS), .enterEv (i + 1)])
  ∧ (i + 1 = cs.length → cs[i].exec w = (some .SUCCESS, w2) →
        SequenceNode.execute cs (fuel + 1) (some i) w
          = some (.ok .SUCCESS none w2 [.execEv i (some .SUCCESS)])) := by
  refine ⟨?_, ?_, ?_, ?_⟩
  · intro hx
    simp only [SequenceNode.execute]
    rw [seqLoop, List.getElem?_eq_getElem hi]
    dsimp only
    rw [hx]
    simp
  · intro hx
    simp only [SequenceNode.execute]
    rw [seqLoop, List.getElem?_eq_getElem hi]
    dsimp only
    rw [hx]
    simp
  · intro h2 hx
    simp only [SequenceNode.execute]
    rw [seqLoop, List.getElem?_eq_getElem hi]
    dsimp only
    rw [hx]
    dsimp only
    rw [dif_pos h2]
    simp
  · intro h2 hx
    simp only [SequenceNode.execute]
    rw [seqLoop, List.getElem?_eq_getElem hi]
    dsimp only
    rw [hx]
    dsimp only
    rw [dif_neg (by omega)]
    simp

theorem seq_C1_witness :
    SequenceNode.execute csFailFirst 4 (some 0) 5
        = some (.ok .FAILURE none 5 [.execEv 0 (some .FAILURE)])
  ∧ SequenceNode.execute csSucceedThenRun 4 (some 1) 5
        = some (.ok .RUNNING (some 1) 5 [.execEv 1 (some .RUNNING)])
  ∧ SequenceNode.execute csSucceedThenRun 4 (some 0) 5
        = seqLoop csSucceedThenRun 3 1 (alwaysRunChild.enter 15)
            [.execEv 0 (some .SUCCESS), .enterEv 1]
  ∧ SequenceNode.execute csFailFirst 4 (some 1) 5
        = some (.ok .SUCCESS none 15 [.execEv 1 (some .SUCCESS)]) :=
  ⟨(seq_C1 csFailFirst 3 0 (by decide) 5 5).1 rfl,
   (seq_C1 csSucceedThenRun 3 1 (by decide) 5 5).2.1 rfl,
   (seq_C1 csSucceedThenRun 3 0 (by decide) 5 15).2.2.1 (by decide) rfl,
   (seq_C1 csFailFirst 3 1 (by decide) 5 15).2.2.2 rfl rfl⟩

/-- Claim C2: for a selector node with at least one child, when the
running child succeeds the selector clears `running_child` and returns
Success that same tick (short-circuit); when a non-last child fails the
selector advances to the next sibling, enters it, and keeps executing
within the same tick; the selector returns Failure only when the last
child fails (the last trace event of any Failure result is the failure
of child `N - 1`), clearing `running_child`; a Running child makes the
selector return Running immediately. -/
theorem sel_C2 {ω : Type} (cs : List (Child ω)) (fuel i : Nat)
    (hi : i < cs.length) (w w2 : ω) :
    (cs[i].exec w = (some .SUCCESS, w2) →
        SelectorNode.execute cs (fuel + 1) (some i) w
          = some (.ok .SUCCESS none w2 [.execEv i (some .SUCCESS)]))
  ∧ (∀ _h2 : i + 1 < cs.length, cs[i].exec w = (some .FAILURE, w2) →
        SelectorNode.execute cs (fuel + 1) (some i) w
          = selLoop cs fuel (i + 1) (cs[i + 1].enter w2)
              [.execEv i (some .FAILURE), .enterEv (i + 1)])
  ∧ (i + 1 = cs.length → cs[i].exec w = (some .FAILURE, w2) →
        SelectorNode.execute cs (fuel + 1) (some i) w
          = some (.ok .FAILURE none w2 [.execEv i (some .FAILURE)]))
  ∧ (cs[i].exec w = (some .RUNNING, w2) →
        SelectorNode.execute cs (fuel + 1) (some i) w
          = some (.ok .RUNNING (some i) w2 [.execEv i (some .RUNNING)]))
  ∧ (∀ (fuel2 : Nat) (rc : Option Nat) (w3 : ω) (rc2 : Option Nat) (w4 : ω)
        (tr2 : List Event),
        SelectorNode.execute cs fuel2 rc w3 = some (.ok .FAILURE rc2 w4 tr2) →
        tr2.getLast? = some (.execEv (cs.length - 1) (some .FAILURE))) := by
  refine ⟨?_, ?_, ?_, ?_, ?_⟩
  · intro hx
    simp only [SelectorNode.execute]
    rw [selLoop, List.getElem?_eq_getElem hi]
    dsimp only
    rw [hx]
    simp
  · intro h2 hx
    simp only [SelectorNode.execute]
    rw [selLoop, List.getElem?_eq_getElem hi]
    dsimp only
    rw [hx]
    dsimp only
    rw [dif_pos h2]
    simp
  · intro h2 hx
    simp only [SelectorNode.execute]
    rw [selLoop, List.getElem?_eq_getElem hi]
    dsimp only
    rw [hx]
    dsimp only
    rw [dif_neg (by omega)]
    simp
  · intro hx
    simp only [SelectorNode.execute]
    rw [selLoop, List.getElem?_eq_getElem hi]
    dsimp only
    rw [hx]
    simp
  · intro fuel2 rc w3 rc2 w4 tr2 h
    match rc with
    | none =>
      simp only [SelectorNode.execute] at h
      match hc : cs[0]? with
      | none => rw [hc] at h; simp at h
      | some c0 => rw [hc] at h; exact selLoop_failureLast cs fuel2 _ _ _ _ _ _ h
    | some j => exact selLoop_failureLast cs fuel2 _ _ _ _ _ _ h

theorem sel_C2_witness :
    SelectorNode.execute csSucceedThenRun 4 (some 0) 5
        = some (.ok .SUCCESS none 15 [.execEv 0 (some .SUCCESS)])
  ∧ SelectorNode.execute csFailFirst 4 (some 0) 5
        = selLoop csFailFirst 3 1 (alwaysSucceedChild.enter 5)
            [.execEv 0 (some .FAILURE), .enterEv 1]
  ∧ SelectorNode.execute csTwoFail 4 (some 1) 5
        = some (.ok .FAILURE none 5 [.execEv 1 (some .FAILURE)])
  ∧ SelectorNode.execute csSucceedThenRun 4 (some 1) 5
        = some (.ok .RUNNING (some 1) 5 [.execEv 1 (some .RUNNING)])
  ∧ [Event.enterEv 0, Event.execEv 0 (some .FAILURE), Event.enterEv 1,
      Event.execEv 1 (some .FAILURE)].getLast?
      = some (.execEv (csTwoFail.length - 1) (some .FAILURE)) :=
  ⟨(sel_C2 csSucceedThenRun 3 0 (by decide) 5 15).1 rfl,
   (sel_C2 csFailFirst 3 0 (by decide) 5 5).2.1 (by decide) rfl,
   (sel_C2 csTwoFail 3 1 (by decide) 5 5).2.2.1 rfl rfl,
   (sel_C2 csSucceedThenRun 3 1 (by decide) 5 5).2.2.2.1 rfl,
   (sel_C2 csTwoFail 3 0 (by decide) 5 5).2.2.2.2 5 none 5 none 5
     [Event.enterEv 0, Event.execEv 0 (some .FAILURE), Event.enterEv 1,
       Event.execEv 1 (some .FAILURE)] rfl⟩

/-- Claim C3: for both composite node kinds, `running_child` is null
immediately after `enter`, null immediately after any terminal (Success
or Failure) `execute` result, and non-null exactly when `execute`
returns Running. -/
theorem composite_C3 {ω : Type} (cs : List (Child ω)) (fuel : Nat)
    (rc : Option Nat) (w : ω) (r : CompResult ω) :
    (∀ rc0, SequenceNode.enter rc0 = none)
  ∧ (∀ rc0, SelectorNode.enter rc0 = none)
  ∧ (SequenceNode.execute cs fuel rc w = some r → r.terminalClearsRC)
  ∧ (SelectorNode.execute cs fuel rc w = some r → r.terminalClearsRC) := by
  refine ⟨fun _ => rfl, fun _ => rfl, ?_, ?_⟩
  · intro h
    match rc with
    | none =>
      simp only [SequenceNode.execute] at h
      match hc : cs[0]? with
      | none =>
        rw [hc] at h
        cases h
        trivial
      | some c0 => rw [hc] at h; exact seqLoop_rcInv cs fuel _ _ _ _ h
    | some j => exact seqLoop_rcInv cs fuel _ _ _ _ h
  · intro h
    match rc with
    | none =>
      simp only [SelectorNode.execute] at h
      match hc : cs[0]? with
      | none =>
        rw [hc] at h
        cases h
        trivial
      | some c0 => rw [hc] at h; exact selLoop_rcInv cs fuel _ _ _ _ h
    | some j => exact selLoop_rcInv cs fuel _ _ _ _ h

theorem composite_C3_witness :
    CompResult.terminalClearsRC
      (CompResult.ok .FAILURE none (5 : Nat)
        [.enterEv 0, .execEv 0 (some .FAILURE), .enterEv 1,
          .execEv 1 (some .FAILURE)]) :=
  (composite_C3 csTwoFail 5 none 5
      (CompResult.ok .FAILURE none 5
        [.enterEv 0, .execEv 0 (some .FAILURE), .enterEv 1,
          .execEv 1 (some .FAILURE)])).2.2.2 rfl

/-- Claim C7 (amended): ticking a composite with an empty child list does
raise (`self.children[0]` raises `IndexError`, modelled by the error
result), but `BehaviorTree.update` with a null root does NOT raise: it
silently returns normally with nothing executed and the world unchanged. -/
theorem preconditions_C7 {ω : Type} (fuel : Nat) (w : ω) :
    SequenceNode.execute ([] : List (Child ω)) fuel none w = some (.err [])
  ∧ SelectorNode.execute ([] : List (Child ω)) fuel none w = some (.err [])
  ∧ BehaviorTree.update (⟨none⟩ : BehaviorTree ω) w = .ok w := by
  exact ⟨rfl, rfl, rfl⟩

/-- Claim C7 counterexample: with a null root, `update` on world `7`
returns normally (`ok 7`, a silent no-op), which is not the raised-error
outcome the claim asserts. -/
theorem nullRoot_C7_counterexample :
    BehaviorTree.update (⟨none⟩ : BehaviorTree Nat) 7 = .ok 7
  ∧ (UpdateResult.ok 7 ≠ (UpdateResult.raised : UpdateResult Nat)) :=
  ⟨rfl, by decide⟩

/-- Claim C8: if the FSM is in `MoveForwardState` and the bumper reads
true during `update`, then by the end of that same `update` the current
state is a freshly constructed `GoBackState` whose `execute`
has already run within the same `update`, commanding backward linear
velocity `(BACKWARD_SPEED, 0)`. -/
theorem fsm_C8 (C : Constants) (rng : Nat → ℚ) (cc : Nat) (t : ℚ)
    (rix : Nat) :
    FiniteStateMachine.update C true rng (.moveForward cc t) rix
      = (.goBack 0 0, rix, (C.BACKWARD_SPEED, 0)) := by
  simp [FiniteStateMachine.update, FSMState.check_transition, FSMState.execute]

/-- Claim C4: with sample period `T > 0` and the forward threshold `3`
hard-coded in `MoveForwardNode.execute` (the `move_forward_time`
configuration value of the originating lab), a freshly entered node
whose bumper stays clear returns Running, commanding constant forward
velocity, on every call `k` with `k < ceil(3 / T)`, and returns Success
on call `ceil(3 / T)` and on every later call independent of the bumper;
bumper contact on a call before the threshold returns Failure.  Call `k`
(1-based) acts on counter state `k - 1 = j`. -/
theorem moveForward_C4 (C : Constants) (hT : 0 < C.SAMPLE_TIME) :
    (∀ s, MoveForwardNode.enter s = ⟨0⟩)
  ∧ (∀ j : Nat, (j : ℤ) + 1 < ⌈(3 : ℚ) / C.SAMPLE_TIME⌉ →
        MoveForwardNode.execute C false ⟨j⟩
          = (some .RUNNING, ⟨j + 1⟩, some (C.FORWARD_SPEED, 0)))
  ∧ (∀ j : Nat, (j : ℤ) + 1 < ⌈(3 : ℚ) / C.SAMPLE_TIME⌉ →
        MoveForwardNode.execute C true ⟨j⟩ = (some .FAILURE, ⟨j + 1⟩, none))
  ∧ (∀ (j : Nat) (b : Bool), ⌈(3 : ℚ) / C.SAMPLE_TIME⌉ ≤ (j : ℤ) + 1 →
        MoveForwardNode.execute C b ⟨j⟩ = (some .SUCCESS, ⟨j + 1⟩, none)) := by
  have hlt : ∀ j : Nat, (j : ℤ) + 1 < ⌈(3 : ℚ) / C.SAMPLE_TIME⌉ →
      ((j + 1 : Nat) : ℚ) * C.SAMPLE_TIME < 3 := by
    intro j hj
    have h1 : (((j : ℤ) + 1 : ℤ) : ℚ) < (3 : ℚ) / C.SAMPLE_TIME :=
      Int.lt_ceil.mp hj
    have h2 : ((j + 1 : Nat) : ℚ) < (3 : ℚ) / C.SAMPLE_TIME := by
      push_cast at h1 ⊢
      exact h1
    exact (lt_div_iff₀ hT).mp h2
  have hge : ∀ j : Nat, ⌈(3 : ℚ) / C.SAMPLE_TIME⌉ ≤ (j : ℤ) + 1 →
      (3 : ℚ) ≤ ((j + 1 : Nat) : ℚ) * C.SAMPLE_TIME := by
    intro j hj
    have h1 : (3 : ℚ) / C.SAMPLE_TIME ≤ (((j : ℤ) + 1 : ℤ) : ℚ) :=
      Int.ceil_le.mp hj
    have h2 : (3 : ℚ) / C.SAMPLE_TIME ≤ ((j + 1 : Nat) : ℚ) := by
      push_cast at h1 ⊢
      exact h1
    exact (div_le_iff₀ hT).mp h2
  refine ⟨fun _ => rfl, ?_, ?_, ?_⟩
  · intro j hj
    simp only [MoveForwardNode.execute]
    rw [if_pos (hlt j hj)]
    simp
  · intro j hj
    simp only [MoveForwardNode.execute]
    rw [if_pos (hlt j hj)]
    simp
  · intro j b hj
    simp only [MoveForwardNode.execute]
    rw [if_neg (not_lt.mpr (hge j hj))]

theorem moveForward_C4_witness :
    MoveForwardNode.enter ⟨5⟩ = (⟨0⟩ : MoveForwardNode)
  ∧ MoveForwardNode.execute CdemoT1 false ⟨0⟩
      = (some .RUNNING, ⟨1⟩, some (CdemoT1.FORWARD_SPEED, 0))
  ∧ MoveForwardNode.execute CdemoT1 true ⟨1⟩ = (some .FAILURE, ⟨2⟩, none)
  ∧ MoveForwardNode.execute CdemoT1 true ⟨2⟩ = (some .SUCCESS, ⟨3⟩, none) :=
  ⟨(moveForward_C4 CdemoT1 (by decide)).1 ⟨5⟩,
   (moveForward_C4 CdemoT1 (by decide)).2.1 0 (by norm_num [CdemoT1]),
   (moveForward_C4 CdemoT1 (by decide)).2.2.1 1 (by norm_num [CdemoT1]),
   (moveForward_C4 CdemoT1 (by decide)).2.2.2 2 true (by norm_num [CdemoT1])⟩

/-- Claim C5 (code bug witness): `GoBackNode.enter` is `pass` and leaves
the counter untouched, so with sample period 1 and go-back threshold 5 a
node re-entered after 6 prior execute calls returns Success on its very
first post-enter call, while the first call of a fresh activation returns
Running — elapsed-time behavior does not restart from zero. -/
theorem goBack_C5_code_bug :
    GoBackNode.enter ⟨6⟩ = (⟨6⟩ : GoBackNode)
  ∧ (GoBackNode.execute CdemoT1 false (GoBackNode.enter ⟨6⟩)).1
      = some .SUCCESS
  ∧ (GoBackNode.execute CdemoT1 false (GoBackNode.enter ⟨0⟩)).1
      = some .RUNNING := by
  refine ⟨rfl, ?_, ?_⟩ <;>
    norm_num [GoBackNode.execute, GoBackNode.enter, CdemoT1]

/-- Claim C6 counterexample: past the threshold with the bumper still
set (sample period 1, threshold 5, counter 6, bumper true), `execute`
does not fall through with no status — it returns Running. -/
theorem goBack_C6_counterexample :
    (GoBackNode.execute CdemoT1 true ⟨6⟩).1 = some .RUNNING
  ∧ (GoBackNode.execute CdemoT1 true ⟨6⟩).1 ≠ none := by
  constructor
  · norm_num [GoBackNode.execute, CdemoT1]
  · norm_num [GoBackNode.execute, CdemoT1]
    simp

/-- Claim C6 (amended): while elapsed duration has not exceeded the
threshold, every `execute` call commands constant backward velocity and
returns Running; on a call where duration exceeds the threshold with the
bumper clear it returns Success; if the bumper is still set at that
point the `else` branch covers it: it commands backward velocity and
returns Running (no fall-through, a status is always returned). -/
theorem goBack_C6_amended (C : Constants) (bumper : Bool) (s : GoBackNode) :
    (((s.call_count + 1 : Nat) : ℚ) * C.SAMPLE_TIME ≤ C.GO_BACK_TIME →
        GoBackNode.execute C bumper s
          = (some .RUNNING, ⟨s.call_count + 1⟩, some (C.BACKWARD_SPEED, 0)))
  ∧ (C.GO_BACK_TIME < ((s.call_count + 1 : Nat) : ℚ) * C.SAMPLE_TIME →
      bumper = false →
        GoBackNode.execute C bumper s
          = (some .SUCCESS, ⟨s.call_count + 1⟩, none))
  ∧ (C.GO_BACK_TIME < ((s.call_count + 1 : Nat) : ℚ) * C.SAMPLE_TIME →
      bumper = true →
        GoBackNode.execute C bumper s
          = (some .RUNNING, ⟨s.call_count + 1⟩, some (C.BACKWARD_SPEED, 0))) := by
  refine ⟨?_, ?_, ?_⟩
  · intro h
    simp only [GoBackNode.execute]
    rw [if_neg fun hc => absurd hc.1 (not_lt.mpr h)]
  · intro h hb
    simp only [GoBackNode.execute]
    rw [if_pos ⟨h, hb⟩]
  · intro h hb
    subst hb
    simp only [GoBackNode.execute]
    rw [if_neg fun hc => Bool.noConfusion hc.2]

theorem goBack_C6_amended_witness :
    GoBackNode.execute CdemoT1 false ⟨0⟩
        = (some .RUNNING, ⟨1⟩, some (CdemoT1.BACKWARD_SPEED, 0))
  ∧ GoBackNode.execute CdemoT1 false ⟨5⟩ = (some .SUCCESS, ⟨6⟩, none)
  ∧ GoBackNode.execute CdemoT1 true ⟨5⟩
        = (some .RUNNING, ⟨6⟩, some (CdemoT1.BACKWARD_SPEED, 0)) :=
  ⟨(goBack_C6_amended CdemoT1 false ⟨0⟩).1 (by norm_num [CdemoT1]),
   (goBack_C6_amended CdemoT1 false ⟨5⟩).2.1 (by norm_num [CdemoT1]) rfl,
   (goBack_C6_amended CdemoT1 true ⟨5⟩).2.2 (by norm_num [CdemoT1]) rfl⟩

theorem uniform_bounds (M u : ℚ) (hM : 1 < M) (h0 : 0 ≤ u) (h1 : u < 1) :
    1 ≤ random.uniform 1 M u ∧ random.uniform 1 M u < M := by
  unfold random.uniform
  constructor
  · nlinarith
  · nlinarith

/-- Claim C9 counterexample: in the FSM, `RotateState.check_transition`
resamples `roomba_turning_time` on every call.  With sample period 1,
`MOVE_FORWARD_TIME = 3`, a zero random stream and an activation whose
stored turning time is 2, one `check_transition` that does not leave the
state replaces the turning time by 1 — resampling mid-activation. -/
theorem rotate_C9_counterexample :
    (FSMState.check_transition CdemoT1 false (fun _ => 0)
        (.rotate 0 0 1 (some 2)) 0).1
      = FSMState.rotate 1 1 1 (some 1)
  ∧ some (1 : ℚ) ≠ some (2 : ℚ) := by
  constructor
  · norm_num [FSMState.check_transition, random.uniform, CdemoT1]
  · norm_num

/-- Claim C9 (amended): the BT `RotateNode` samples both random values
exactly once per `enter` — the sampled duration lies in
`[1, MOVE_FORWARD_TIME)` and `execute` never changes the direction or
the duration, so the commanded angular-velocity sign is stable across
the activation.  The FSM `RotateState` keeps its direction stable across
`check_transition` calls, but resamples the turning duration on every
`check_transition` call (each fresh sample again lies in
`[1, MOVE_FORWARD_TIME)`). -/
theorem rotate_C9_amended (C : Constants) (u1 u2 : ℚ)
    (hM : 1 < C.MOVE_FORWARD_TIME) (hu0 : 0 ≤ u2) (hu1 : u2 < 1)
    (s : RotateNode) (bumper : Bool) :
    (1 ≤ (RotateNode.enter C u1 u2 s).roomba_turning_time
      ∧ (RotateNode.enter C u1 u2 s).roomba_turning_time
          < C.MOVE_FORWARD_TIME)
  ∧ ((RotateNode.execute C bumper s).2.1.random_angular_direction
        = s.random_angular_direction
      ∧ (RotateNode.execute C bumper s).2.1.roomba_turning_time
        = s.roomba_turning_time)
  ∧ (((s.call_count + 1 : Nat) : ℚ) * C.SAMPLE_TIME
        < s.roomba_turning_time →
      (0 < s.random_angular_direction →
          (RotateNode.execute C bumper s).2.2 = some (0, C.ANGULAR_SPEED))
      ∧ (¬ 0 < s.random_angular_direction →
          (RotateNode.execute C bumper s).2.2 = some (0, -C.ANGULAR_SPEED)))
  ∧ (∀ (cc : Nat) (t dir : ℚ) (tt : Option ℚ) (rix : Nat) (rng : Nat → ℚ),
        FSMState.check_transition C bumper rng (.rotate cc t dir tt) rix
          = if bumper = false
              ∧ random.uniform 1 C.MOVE_FORWARD_TIME (rng rix)
                  < ((cc + 1 : Nat) : ℚ) * C.SAMPLE_TIME
            then (.moveForward 0 0, rix + 1)
            else (.rotate (cc + 1) (((cc + 1 : Nat) : ℚ) * C.SAMPLE_TIME) dir
                (some (random.uniform 1 C.MOVE_FORWARD_TIME (rng rix))),
              rix + 1))
  ∧ (∀ u : ℚ, 0 ≤ u → u < 1 →
        1 ≤ random.uniform 1 C.MOVE_FORWARD_TIME u
      ∧ random.uniform 1 C.MOVE_FORWARD_TIME u < C.MOVE_FORWARD_TIME) := by
  refine ⟨?_, ?_, ?_, ?_, ?_⟩
  · exact uniform_bounds C.MOVE_FORWARD_TIME u2 hM hu0 hu1
  · constructor <;>
      (simp only [RotateNode.execute]
       split
       · split <;> rfl
       · split <;> rfl)
  · intro hspin
    constructor
    · intro hdir
      simp only [RotateNode.execute]
      rw [if_pos hspin, if_pos hdir]
    · intro hdir
      simp only [RotateNode.execute]
      rw [if_pos hspin, if_neg hdir]
  · intro cc t dir tt rix rng
    rfl
  · intro u h0 h1
    exact uniform_bounds C.MOVE_FORWARD_TIME u hM h0 h1

theorem rotate_C9_amended_witness :
    1 ≤ (RotateNode.enter CdemoT1 0 (1 / 2) ⟨0, 0, 0⟩).roomba_turning_time
  ∧ (RotateNode.enter CdemoT1 0 (1 / 2) ⟨0, 0, 0⟩).roomba_turning_time
      < CdemoT1.MOVE_FORWARD_TIME :=
  (rotate_C9_amended CdemoT1 0 (1 / 2) (by norm_num [CdemoT1]) (by norm_num)
    (by norm_num) ⟨0, 0, 0⟩ false).1

theorem seqLoop_none_of_noStatus {ω : Type} (cs : List (Child ω)) (i : Nat)
    (hi : i < cs.length) (hnone : ∀ w0 : ω, (cs[i].exec w0).1 = none) :
    ∀ (fuel : Nat) (w : ω) (tr : List Event), seqLoop cs fuel i w tr = none := by
  intro fuel
  induction fuel with
  | zero => intro w tr; rfl
  | succ n ih =>
    intro w tr
    rw [seqLoop, List.getElem?_eq_getElem hi]
    dsimp only
    have hx := hnone w
    rcases hpair : cs[i].exec w with ⟨st, w2⟩
    rw [hpair] at hx
    dsimp at hx
    subst hx
    exact ih w2 (tr ++ [.execEv i none])

/-- Claim C10: `RotateNode.execute` returns no status at all once its
elapsed time has reached the sampled turning duration while the bumper
is set; and a sequence node whose running child returns such a
non-status value on every re-execution matches no branch of its loop and
re-executes the child forever — `SequenceNode.execute` yields `none`
(loop still going) for every amount of fuel. -/
theorem seq_C10 {ω : Type} (cs : List (Child ω)) (i : Nat)
    (hi : i < cs.length) (hnone : ∀ w0 : ω, (cs[i].exec w0).1 = none)
    (C : Constants) (b : Bool) (s : RotateNode)
    (htime : s.roomba_turning_time
      ≤ ((s.call_count + 1 : Nat) : ℚ) * C.SAMPLE_TIME)
    (hb : b = true) :
    (RotateNode.execute C b s).1 = none
  ∧ ∀ (fuel : Nat) (w : ω), SequenceNode.execute cs fuel (some i) w = none := by
  constructor
  · subst hb
    simp only [RotateNode.execute]
    rw [if_neg (not_lt.mpr htime)]
    simp
  · intro fuel w
    simp only [SequenceNode.execute]
    exact seqLoop_none_of_noStatus cs i hi hnone fuel w []

theorem seq_C10_witness :
    (RotateNode.execute CdemoT1 true ⟨5, 1, 2⟩).1 = none
  ∧ SequenceNode.execute csNoneOnly 4 (some 0) 7 = none :=
  ⟨(seq_C10 csNoneOnly 0 (by decide) (fun _ => rfl) CdemoT1 true ⟨5, 1, 2⟩
      (by norm_num [CdemoT1]) rfl).1,
   (seq_C10 csNoneOnly 0 (by decide) (fun _ => rfl) CdemoT1 true ⟨5, 1, 2⟩
      (by norm_num [CdemoT1]) rfl).2 4 7⟩
